import Mathlib

/-!
# Verification of the transport-framing / JSON-repair layer of claude-code-review-mcp

Shallow embedding, in Lean 4, of the JSON sanitation and transport helpers of the
repository: `src/utils/json-safe.ts` (`sanitizeJson`, `safeStringify`),
`src/utils/transport-helpers.ts` (`formatForMcpResponse`, `safeJsonStringify`),
the stdio patch (`patchStdio`), the TCP proxy buffer handlers (`startProxy`),
and the `listModels` tool pipeline (`src/tools/index.ts`, `src/config/index.ts`).

JavaScript runtime values are modelled by the inductive type `JsValue`;
`JSON.parse` is modelled by a fuel-based recursive-descent parser `jsonParse`
following the JSON grammar accepted by the JavaScript built-in (ECMA-404 plus
JavaScript's whitespace set), and `JSON.stringify` by `jsonStringifyE`.
Each regex replacement of the source is implemented as an explicit character-list
transformation with JavaScript's leftmost, non-overlapping, maximal-munch
semantics for these particular patterns (in each of them, the characters that can
follow a greedy class are excluded from the class, so backtracking never changes
the match and maximal munch is exact).

Modelling conventions:
* strings are Lean `String`s (sequences of unicode scalar values); a `\uXXXX`
  escape denoting a surrogate code unit is mapped to U+FFFD (no claim below
  touches that corner);
* JavaScript numbers appear as `JsValue.num : Int` for integral values produced
  by the embedded code, and `JsValue.numLit` keeping the source lexeme for
  non-integral numeric literals met by the parser;
* values form trees: object identity and hence circular references are not
  representable, so a "seen-set" circularity check of the source never fires;
* loggers are no-ops; code under `try`/`catch` is modelled in `Except`, with the
  operations that can throw in JavaScript (`JSON.parse`, `JSON.stringify` on a
  BigInt, unbounded recursion) returning `.error`.
-/

namespace CCR

/-- A JavaScript runtime value, as far as the JSON transport layer can observe
it: the JSON data model plus `undefined`, `NaN`, BigInt (which
`JSON.stringify` refuses to serialize) and `Error` objects (whose own
properties are non-enumerable). `numLit` keeps the raw lexeme of a
non-integral numeric literal produced by the parser. -/
inductive JsValue where
  | undefined
  | null
  | bool (b : Bool)
  | num (n : Int)
  | numLit (lexeme : String)
  | nan
  | str (s : String)
  | arr (elems : List JsValue)
  | obj (fields : List (String × JsValue))
  | bigint (n : Int)
  | errObj (name message stack : String)
deriving Repr

mutual

/-- Boolean equality on `JsValue`, structural. -/
def JsValue.beq : JsValue → JsValue → Bool
  | .undefined, .undefined => true
  | .null, .null => true
  | .bool a, .bool b => a == b
  | .num a, .num b => a == b
  | .numLit a, .numLit b => a == b
  | .nan, .nan => true
  | .str a, .str b => a == b
  | .arr a, .arr b => JsValue.beqList a b
  | .obj a, .obj b => JsValue.beqFields a b
  | .bigint a, .bigint b => a == b
  | .errObj a b c, .errObj a' b' c' => a == a' && b == b' && c == c'
  | _, _ => false

def JsValue.beqList : List JsValue → List JsValue → Bool
  | [], [] => true
  | x :: xs, y :: ys => JsValue.beq x y && JsValue.beqList xs ys
  | _, _ => false

def JsValue.beqFields : List (String × JsValue) → List (String × JsValue) → Bool
  | [], [] => true
  | (k, v) :: as, (k', v') :: bs => k == k' && JsValue.beq v v' && JsValue.beqFields as bs
  | _, _ => false

end

mutual

theorem JsValue.beq_iff : ∀ a b : JsValue, JsValue.beq a b = true ↔ a = b
  | .undefined, b => by cases b <;> simp [JsValue.beq]
  | .null, b => by cases b <;> simp [JsValue.beq]
  | .bool _, b => by cases b <;> simp [JsValue.beq]
  | .num _, b => by cases b <;> simp [JsValue.beq]
  | .numLit _, b => by cases b <;> simp [JsValue.beq]
  | .nan, b => by cases b <;> simp [JsValue.beq]
  | .str _, b => by cases b <;> simp [JsValue.beq]
  | .arr as, b => by
      cases b <;> simp [JsValue.beq]
      exact JsValue.beqList_iff as _
  | .obj fs, b => by
      cases b <;> simp [JsValue.beq]
      exact JsValue.beqFields_iff fs _
  | .bigint _, b => by cases b <;> simp [JsValue.beq]
  | .errObj _ _ _, b => by cases b <;> simp [JsValue.beq, and_assoc]

theorem JsValue.beqList_iff : ∀ a b : List JsValue, JsValue.beqList a b = true ↔ a = b
  | [], b => by cases b <;> simp [JsValue.beqList]
  | x :: xs, b => by
      cases b <;> simp [JsValue.beqList]
      rw [JsValue.beq_iff, JsValue.beqList_iff xs]

theorem JsValue.beqFields_iff :
    ∀ a b : List (String × JsValue), JsValue.beqFields a b = true ↔ a = b
  | [], b => by cases b <;> simp [JsValue.beqFields]
  | (k, v) :: xs, b => by
      cases b with
      | nil => simp [JsValue.beqFields]
      | cons y ys =>
        obtain ⟨k', v'⟩ := y
        simp [JsValue.beqFields, and_assoc]
        rw [JsValue.beq_iff, JsValue.beqFields_iff xs]
        intro _
        exact Iff.rfl

end

instance : DecidableEq JsValue := fun a b =>
  decidable_of_iff (JsValue.beq a b = true) (JsValue.beq_iff a b)

/-! ## The JavaScript `JSON.parse` grammar

`jsonParse` models the JavaScript built-in: whitespace is space, tab, line
feed or carriage return; strings are double-quoted with the standard escape
set and reject unescaped control characters; numbers follow the strict JSON
grammar; duplicate object keys collapse with the later value winning at the
first key's position (JavaScript property-assignment order). -/

/-- The four whitespace characters `JSON.parse` skips (space, tab, line
feed, carriage return). -/
def isJsonWs (c : Char) : Bool :=
  let n := c.toNat
  n == 32 || n == 9 || n == 10 || n == 13

def skipJsonWs : List Char → List Char
  | c :: cs => if isJsonWs c then skipJsonWs cs else c :: cs
  | [] => []

def isDigitChar (c : Char) : Bool :=
  let n := c.toNat
  48 ≤ n && n ≤ 57

def takeDigits : List Char → List Char × List Char
  | c :: cs =>
    if isDigitChar c then
      let (ds, r) := takeDigits cs
      (c :: ds, r)
    else ([], c :: cs)
  | [] => ([], [])

def digitsToNat (ds : List Char) : Nat :=
  ds.foldl (fun acc c => 10 * acc + (c.toNat - 48)) 0

def hexDigitVal (c : Char) : Option Nat :=
  let n := c.toNat
  if 48 ≤ n ∧ n ≤ 57 then some (n - 48)
  else if 97 ≤ n ∧ n ≤ 102 then some (n - 87)
  else if 65 ≤ n ∧ n ≤ 70 then some (n - 55)
  else none

/-- Code point of a `\uXXXX` escape; surrogate code units are mapped to
U+FFFD (JavaScript strings are UTF-16 and can hold lone surrogates, Lean
strings cannot; no concrete datum of this development contains one). -/
def uEscapeChar (a b c d : Char) : Option Char := do
  let va ← hexDigitVal a
  let vb ← hexDigitVal b
  let vc ← hexDigitVal c
  let vd ← hexDigitVal d
  let n := ((va * 16 + vb) * 16 + vc) * 16 + vd
  if 0xD800 ≤ n ∧ n ≤ 0xDFFF then
    return Char.ofNat 0xFFFD
  else
    return Char.ofNat n

/-- Body of a JSON string after the opening quote: returns the decoded
characters and the input after the closing quote. Unescaped control
characters (code < 0x20) are rejected, as `JSON.parse` rejects them. -/
def parseStringBody (acc : List Char) : List Char → Option (String × List Char)
  | '"' :: rest => some (⟨acc.reverse⟩, rest)
  | '\\' :: e :: rest =>
    match e with
    | '"' => parseStringBody ('"' :: acc) rest
    | '\\' => parseStringBody ('\\' :: acc) rest
    | '/' => parseStringBody ('/' :: acc) rest
    | 'b' => parseStringBody (Char.ofNat 8 :: acc) rest
    | 'f' => parseStringBody (Char.ofNat 12 :: acc) rest
    | 'n' => parseStringBody ('\n' :: acc) rest
    | 'r' => parseStringBody ('\r' :: acc) rest
    | 't' => parseStringBody ('\t' :: acc) rest
    | 'u' =>
      match rest with
      | a :: b :: c :: d :: rest' =>
        match uEscapeChar a b c d with
        | some ch => parseStringBody (ch :: acc) rest'
        | none => none
      | _ => none
    | _ => none
  | c :: rest => if c.toNat < 0x20 then none else parseStringBody (c :: acc) rest
  | [] => none

/-- A JSON number literal: `-? (0 | [1-9][0-9]*) frac? exp?`. Returns the
value (`num` when integral, `numLit` with the lexeme otherwise) and the rest. -/
def parseNumber (cs : List Char) : Option (JsValue × List Char) :=
  let negSplit : Bool × List Char :=
    match cs with
    | '-' :: more => (true, more)
    | other => (false, other)
  let neg := negSplit.1
  let cs1 := negSplit.2
  match cs1 with
  | c :: _ =>
    if ¬ isDigitChar c then none
    else
      let (intDs, cs2) := takeDigits cs1
      -- leading zero only as the single digit 0
      if intDs.length > 1 ∧ intDs.headI = '0' then none
      else
        let fracSplit : List Char × List Char :=
          match cs2 with
          | '.' :: afterDot => takeDigits afterDot
          | noDot => ([], noDot)
        let fracDs := fracSplit.1
        let cs3 := fracSplit.2
        let fracPresent : Bool := match cs2 with
          | '.' :: _ => true
          | _ => false
        if fracPresent ∧ fracDs.isEmpty then none
        else
          let (expPart, cs4) : Option (List Char) × List Char := match cs3 with
            | 'e' :: r | 'E' :: r =>
              let (sgn, r') := match r with
                | '+' :: r'' => (['+'], r'')
                | '-' :: r'' => (['-'], r'')
                | _ => ([], r)
              let (expDs, r'') := takeDigits r'
              (some (sgn ++ expDs), r'')
            | _ => (none, cs3)
          match expPart with
          | some eds =>
            if (eds.filter isDigitChar).isEmpty then none
            else
              let expChar := match cs3 with
                | c' :: _ => c'
                | [] => 'e'
              let lexeme : List Char :=
                (if neg then ['-'] else []) ++ intDs ++
                (if fracPresent then '.' :: fracDs else []) ++ (expChar :: eds)
              some (.numLit ⟨lexeme⟩, cs4)
          | none =>
            if fracPresent then
              let lexeme : List Char :=
                (if neg then ['-'] else []) ++ intDs ++ ('.' :: fracDs)
              some (.numLit ⟨lexeme⟩, cs4)
            else
              let v : Int := if neg then -(digitsToNat intDs : Int) else (digitsToNat intDs : Int)
              some (.num v, cs4)
  | [] => none

/-- JavaScript object construction from parsed members: a duplicate key keeps
its first position and takes the later value. -/
def insertJsField (fs : List (String × JsValue)) (k : String) (v : JsValue) :
    List (String × JsValue) :=
  if fs.any (fun p => p.1 = k) then
    fs.map (fun p => if p.1 = k then (k, v) else p)
  else fs ++ [(k, v)]

mutual

/-- One JSON value at the head of the input (leading whitespace already
skipped); fuel bounds the recursion depth. -/
def parseValue : Nat → List Char → Option (JsValue × List Char)
  | 0, _ => none
  | _ + 1, [] => none
  | fuel + 1, c :: cs =>
    match c with
    | '\x7b' => parseMembers fuel (skipJsonWs cs) [] true
    | '[' => parseElements fuel (skipJsonWs cs) [] true
    | '"' =>
      match parseStringBody [] cs with
      | some (s, rest) => some (.str s, rest)
      | none => none
    | 't' =>
      match cs with
      | 'r' :: 'u' :: 'e' :: rest => some (.bool true, rest)
      | _ => none
    | 'f' =>
      match cs with
      | 'a' :: 'l' :: 's' :: 'e' :: rest => some (.bool false, rest)
      | _ => none
    | 'n' =>
      match cs with
      | 'u' :: 'l' :: 'l' :: rest => some (.null, rest)
      | _ => none
    | _ => parseNumber (c :: cs)

/-- Members of an object after `{` (whitespace skipped); `first` is true when
no member has been read yet. -/
def parseMembers (fuel : Nat) (cs : List Char) (acc : List (String × JsValue))
    (first : Bool) : Option (JsValue × List Char) :=
  match fuel with
  | 0 => none
  | fuel + 1 =>
    match cs with
    | '}' :: rest =>
      if first then some (.obj acc.reverse, rest) else none
    | '"' :: cs' =>
      match parseStringBody [] cs' with
      | some (k, rest1) =>
        match skipJsonWs rest1 with
        | ':' :: rest2 =>
          match parseValue fuel (skipJsonWs rest2) with
          | some (v, rest3) =>
            let acc' := (insertJsField acc.reverse k v).reverse
            match skipJsonWs rest3 with
            | ',' :: rest4 => parseMembers fuel (skipJsonWs rest4) acc' false
            | '\x7d' :: rest4 => some (.obj acc'.reverse, rest4)
            | _ => none
          | none => none
        | _ => none
      | none => none
    | _ => none

/-- Elements of an array after `[` (whitespace skipped). -/
def parseElements (fuel : Nat) (cs : List Char) (acc : List JsValue)
    (first : Bool) : Option (JsValue × List Char) :=
  match fuel with
  | 0 => none
  | fuel + 1 =>
    match cs with
    | ']' :: rest =>
      if first then some (.arr acc.reverse, rest) else none
    | _ =>
      match parseValue fuel cs with
      | some (v, rest1) =>
        match skipJsonWs rest1 with
        | ',' :: rest2 => parseElements fuel (skipJsonWs rest2) (v :: acc) false
        | ']' :: rest2 => some (.arr (v :: acc).reverse, rest2)
        | _ => none
      | none => none

end

/-- Model of the JavaScript built-in `JSON.parse`: `some` on the strings the
built-in accepts, `none` exactly when it throws a `SyntaxError`. -/
def jsonParse (s : String) : Option JsValue :=
  match parseValue (s.length + 1) (skipJsonWs s.data) with
  | some (v, rest) => if skipJsonWs rest = [] then some v else none
  | none => none

/-! ## Regex-replacement machinery

Each regex of `src/utils/json-safe.ts` is an explicit matcher
`List Char → Option (List Char × List Char)`: at the head of the input it
returns the replacement text and the input remaining after the matched
portion, or `none`. `replaceAll` runs a matcher with JavaScript's global
`String.replace` semantics: scan left to right, replace each leftmost match,
resume after the matched portion (replacements are not rescanned). Every
matcher below consumes at least one character when it succeeds. -/

/-- JavaScript's `\s` class (also the characters `String.prototype.trim`
strips): ASCII whitespace, NBSP, the Unicode space separators, the line
separators and the BOM. -/
def isJsSpace (c : Char) : Bool :=
  c.toNat == 0x20 || (0x09 ≤ c.toNat && c.toNat ≤ 0x0D) ||
  c.toNat == 0xA0 || c.toNat == 0x1680 ||
  (0x2000 ≤ c.toNat && c.toNat ≤ 0x200A) ||
  c.toNat == 0x2028 || c.toNat == 0x2029 ||
  c.toNat == 0x202F || c.toNat == 0x205F || c.toNat == 0x3000 || c.toNat == 0xFEFF

def replaceScan (m : List Char → Option (List Char × List Char)) :
    Nat → List Char → List Char
  | 0, cs => cs
  | _ + 1, [] => []
  | fuel + 1, c :: cs =>
    match m (c :: cs) with
    | some (rep, rest) => rep ++ replaceScan m fuel rest
    | none => c :: replaceScan m fuel cs

/-- Global regex replacement (JavaScript `str.replace(/re/g, rep)`). -/
def replaceAll (m : List Char → Option (List Char × List Char))
    (cs : List Char) : List Char :=
  replaceScan m cs.length cs

/-- Whether a matcher succeeds anywhere (JavaScript `/re/.test(str)`). -/
def hasMatch (m : List Char → Option (List Char × List Char)) :
    List Char → Bool
  | [] => false
  | c :: cs => (m (c :: cs)).isSome || hasMatch m cs

/-- Fix 1, `/\[\s*q([^q]+)q\s+q([^q]+)q/g → '["$1","$2"'` with `q` the double
or the single quote (both variants replace with double quotes). In this
pattern each greedy piece is followed by a character its class excludes, so
maximal munch is the exact JavaScript match. -/
def matchFix1 (q : Char) : List Char → Option (List Char × List Char)
  | '[' :: rest =>
    let (_, r1) := rest.span isJsSpace
    match r1 with
    | c1 :: r2 =>
      if c1 = q then
        let (g1, r3) := r2.span (fun c => c ≠ q)
        if g1.isEmpty then none else
        match r3 with
        | _ :: r4 =>
          let (ws2, r5) := r4.span isJsSpace
          if ws2.isEmpty then none else
          match r5 with
          | c2 :: r6 =>
            if c2 = q then
              let (g2, r7) := r6.span (fun c => c ≠ q)
              if g2.isEmpty then none else
              match r7 with
              | _ :: r8 =>
                some ('[' :: '"' :: g1 ++ '"' :: ',' :: '"' :: g2 ++ ['"'], r8)
              | [] => none
            else none
          | [] => none
        | [] => none
      else none
    | [] => none
  | _ => none

/-- Fix 2, `/\[\s+q/g → '["'` for `q` a double or single quote (both
replaced by `["`). -/
def matchBrWsQuote (q : Char) : List Char → Option (List Char × List Char)
  | '[' :: rest =>
    let (ws, r1) := rest.span isJsSpace
    if ws.isEmpty then none else
    match r1 with
    | c :: r2 => if c = q then some (['[', '"'], r2) else none
    | [] => none
  | _ => none

/-- Test of fix 2, `/\[\s+["']/`. -/
def fix2Test (cs : List Char) : Bool :=
  hasMatch (fun l =>
    match matchBrWsQuote '"' l with
    | some r => some r
    | none => matchBrWsQuote '\'' l) cs

/-- Fix 3, `/q1\s+q2/g → '","'` for a pair of quote characters. -/
def matchQWsQ (q1 q2 : Char) : List Char → Option (List Char × List Char)
  | c :: rest =>
    if c = q1 then
      let (ws, r1) := rest.span isJsSpace
      if ws.isEmpty then none else
      match r1 with
      | c2 :: r2 => if c2 = q2 then some (['"', ',', '"'], r2) else none
      | [] => none
    else none
  | [] => none

def isQuoteChar (c : Char) : Bool := c == '"' || c == '\''

/-- Test of fix 3, `/["']\s+["']/`. -/
def fix3Test (cs : List Char) : Bool :=
  hasMatch (fun l =>
    match l with
    | c :: rest =>
      if isQuoteChar c then
        let (ws, r1) := rest.span isJsSpace
        if ws.isEmpty then none else
        match r1 with
        | c2 :: r2 => if isQuoteChar c2 then some ([], c2 :: r2) else none
        | [] => none
      else none
    | [] => none) cs

/-- Fix 4, `/}\s*{/g → '}\n{'`. -/
def matchFix4 : List Char → Option (List Char × List Char)
  | '}' :: rest =>
    let (_, r1) := rest.span isJsSpace
    match r1 with
    | '{' :: r2 => some (['}', '\n', '{'], r2)
    | _ => none
  | _ => none

/-- Fix 5, `/\[\s+\]/g → '[]'`. -/
def matchFix5 : List Char → Option (List Char × List Char)
  | '[' :: rest =>
    let (ws, r1) := rest.span isJsSpace
    if ws.isEmpty then none else
    match r1 with
    | ']' :: r2 => some (['[', ']'], r2)
    | _ => none
  | _ => none

/-- Fix 6, `str.replace(/^([\s\S]{0,10}\[)(\s*)(.)/, prefix + nextChar)`
(non-global, anchored). The greedy `{0,10}` picks the largest `k ≤ 10` such
that character `k` is `[` and at least one character follows it; the match
then drops the whitespace run after that bracket (backing up one character
when the whitespace runs to the end of the string, so that `(.)` can match). -/
def applyFix6 (cs : List Char) : List Char :=
  match (List.range 11).reverse.find?
      (fun k => decide (k + 1 < cs.length) && (cs.getD k ' ' == '[')) with
  | some k =>
    let tail := cs.drop (k + 1)
    let (ws, r) := tail.span isJsSpace
    match r with
    | c :: r' => cs.take k ++ '[' :: c :: r'
    | [] =>
      match ws.getLast? with
      | some c => cs.take k ++ ['[', c]
      | none => cs
  | none => cs

/-- Test of fix 7, `/\[[^,\]]{10,}/`. -/
def fix7Test (cs : List Char) : Bool :=
  hasMatch (fun l =>
    match l with
    | '[' :: rest =>
      let (run, _) := rest.span (fun c => c ≠ ',' && c ≠ ']')
      if run.length ≥ 10 then some ([], rest) else none
    | _ => none) cs

/-- Fix 7, `/\[\s*(["'][^"']+["'])\s+(["'][^"']+["'])/g → '[$1,$2'`. -/
def matchFix7 : List Char → Option (List Char × List Char)
  | '[' :: rest =>
    let (_, r1) := rest.span isJsSpace
    match r1 with
    | q1 :: r2 =>
      if isQuoteChar q1 then
        let (b1, r3) := r2.span (fun c => ¬ isQuoteChar c)
        if b1.isEmpty then none else
        match r3 with
        | q1e :: r4 =>
          let (ws2, r5) := r4.span isJsSpace
          if ws2.isEmpty then none else
          match r5 with
          | q2 :: r6 =>
            if isQuoteChar q2 then
              let (b2, r7) := r6.span (fun c => ¬ isQuoteChar c)
              if b2.isEmpty then none else
              match r7 with
              | q2e :: r8 =>
                some ('[' :: (q1 :: b1 ++ [q1e]) ++ ',' :: q2 :: b2 ++ [q2e], r8)
              | [] => none
            else none
          | [] => none
        | [] => none
      else none
    | [] => none
  | _ => none

/-- Fix 8, `/,(\s*)\]/g → '$1]'`. -/
def matchFix8 : List Char → Option (List Char × List Char)
  | ',' :: rest =>
    let (ws, r1) := rest.span isJsSpace
    match r1 with
    | ']' :: r2 => some (ws ++ [']'], r2)
    | _ => none
  | _ => none

/-- Fix 9, `/,\s*,/g → ','`. -/
def matchFix9 : List Char → Option (List Char × List Char)
  | ',' :: rest =>
    let (_, r1) := rest.span isJsSpace
    match r1 with
    | ',' :: r2 => some ([','], r2)
    | _ => none
  | _ => none

/-- Test of fix 9, `/,,/` (two commas with nothing between, narrower than
the replacement pattern). -/
def fix9Test : List Char → Bool
  | ',' :: ',' :: _ => true
  | _ :: cs => fix9Test cs
  | [] => false

/-- The fix battery of `sanitizeJson` (`src/utils/json-safe.ts` lines
31–99), in source order, each applied only when its trigger pattern tests
positive, exactly as in the source. -/
def applyJsonFixes (s : String) : String :=
  let m := s.data
  let m := if hasMatch (matchFix1 '"') m then replaceAll (matchFix1 '"') m else m
  let m := if hasMatch (matchFix1 '\'') m then replaceAll (matchFix1 '\'') m else m
  let m := if fix2Test m then
    replaceAll (matchBrWsQuote '\'') (replaceAll (matchBrWsQuote '"') m) else m
  let m := if fix3Test m then
    replaceAll (matchQWsQ '\'' '"')
      (replaceAll (matchQWsQ '"' '\'')
        (replaceAll (matchQWsQ '\'' '\'')
          (replaceAll (matchQWsQ '"' '"') m))) else m
  let m := if hasMatch matchFix4 m then replaceAll matchFix4 m else m
  let m := if hasMatch matchFix5 m then replaceAll matchFix5 m else m
  let m := applyFix6 m
  let m := if fix7Test m then replaceAll matchFix7 m else m
  let m := if hasMatch matchFix8 m then replaceAll matchFix8 m else m
  let m := if fix9Test m then replaceAll matchFix9 m else m
  ⟨m⟩

/-- `sanitizeJson` (`src/utils/json-safe.ts` lines 17–125). An empty input is
returned at once (`if (!json) return json`); a string the standard parser
accepts is returned unchanged; otherwise the fix battery runs and its result
is returned whether or not it became parseable (the final `JSON.parse` of the
source only drives logging; both of its branches return the modified text).
The `error instanceof SyntaxError` test is always true, a `JSON.parse` throw
being always a `SyntaxError`, so the fallthrough return of the original text
is unreachable. -/
def sanitizeJson (json : String) : String :=
  if json = "" then json
  else
    match jsonParse json with
    | some _ => json
    | none => applyJsonFixes json

/-- The early-return branch: a string accepted by `JSON.parse` comes back
verbatim (shared by several theorems below). -/
theorem sanitizeJson_of_valid (s : String) (h : (jsonParse s).isSome) :
    sanitizeJson s = s := by
  rcases hv : jsonParse s with _ | v
  · rw [hv] at h
    simp at h
  · unfold sanitizeJson
    rw [hv]
    split <;> rfl

/-- Model of `JSON.parse` as the throwing operation it is in JavaScript:
`.error` exactly where the built-in throws a `SyntaxError`. -/
def jsonParseE (s : String) : Except String JsValue :=
  match jsonParse s with
  | some v => .ok v
  | none => .error "SyntaxError"

/-- `sanitizeJson` with its exception structure explicit: the two
`JSON.parse` calls are the only operations of the body that can throw
(regex replacement and logging cannot), and both sit under the `try`s of
the source, whose `catch`es return a string. -/
def sanitizeJsonE (json : String) : Except String String :=
  if json = "" then .ok json
  else
    match jsonParseE json with
    | .ok _ => .ok json
    | .error _ =>
      match jsonParseE (applyJsonFixes json) with
      | .ok _ => .ok (applyJsonFixes json)
      | .error _ => .ok (applyJsonFixes json)

/-- The stdio patch of `patchStdio` (unnamed module, lines 19–40): the string
the patched `process.stdout.write` hands to the original write for a given
string chunk. A chunk whose trimmed form does not open with a brace or `[` is
forwarded untouched; otherwise a direct position-5 comma insertion fires when
characters 4 and 5 are both double quotes, else the chunk is sanitized and
forwarded (the source forwards `sanitized` when it differs from the chunk and
the chunk itself otherwise — the same string either way, and the branch is
kept). The surrounding `catch` (which forwards the original chunk) is
unreachable in the model, every operation of the body being total. -/
def jsTrim (s : String) : String :=
  ⟨((s.data.dropWhile isJsSpace).reverse.dropWhile isJsSpace).reverse⟩

def startsWithJsonMarker (s : String) : Bool :=
  match (jsTrim s).data with
  | c :: _ => c == '\x7b' || c == '['
  | [] => false

/-- `chunk.length > 5 && chunk.charAt(5) === '"' && chunk.charAt(4) === '"'`. -/
def posFivePattern (s : String) : Bool :=
  decide (s.length > 5) && (s.data.getD 5 ' ' == '"') && (s.data.getD 4 ' ' == '"')

/-- `chunk.slice(0, 5) + ',' + chunk.slice(5)`. -/
def insertCommaAt5 (s : String) : String :=
  ⟨s.data.take 5 ++ ',' :: s.data.drop 5⟩

def patchedStdoutWrite (chunk : String) : String :=
  if startsWithJsonMarker chunk then
    if posFivePattern chunk then insertCommaAt5 chunk
    else if sanitizeJson chunk ≠ chunk then sanitizeJson chunk else chunk
  else chunk

/-- C1: for every string `s` accepted by `JSON.parse`, `sanitizeJson s`
returns `s` itself unchanged (the early-return branch of the sanitizer). -/
theorem sanitizeJson_valid_identity (s : String) (h : (jsonParse s).isSome) :
    sanitizeJson s = s :=
  sanitizeJson_of_valid s h

/-- Witness for C1 at the valid JSON object input with key `a` and value
`[1,2]`. -/
theorem sanitizeJson_valid_identity_witness :
    (jsonParse "\x7b\"a\":[1,2]\x7d").isSome ∧
      sanitizeJson "\x7b\"a\":[1,2]\x7d" = "\x7b\"a\":[1,2]\x7d" :=
  ⟨by decide, sanitizeJson_valid_identity _ (by decide)⟩

/-- C3: for every input string — valid, invalid or empty — `sanitizeJson`
returns a string and never raises: its exception-explicit form always
produces `.ok`, with the value computed by the pure model. -/
theorem sanitizeJsonE_never_throws (s : String) :
    sanitizeJsonE s = Except.ok (sanitizeJson s) := by
  unfold sanitizeJsonE sanitizeJson jsonParseE
  by_cases h : s = ""
  · simp [h]
  · simp only [if_neg h]
    rcases jsonParse s with _ | v
    · rcases jsonParse (applyJsonFixes s) with _ | w <;> rfl
    · rfl

/-- C4: sanitizing the canonical defective input `["a" "b"]` yields a string
`JSON.parse` accepts, and it parses to the two-element array `["a","b"]`. -/
theorem sanitizeJson_repairs_canonical_defect :
    jsonParse (sanitizeJson "[\"a\" \"b\"]") =
      some (.arr [.str "a", .str "b"]) := by decide

/-- Counterexample to C2: the chunk `["",""]` is valid JSON, yet the patched
stdout write's direct position-5 comma insertion rewrites it to `["",","]`
rather than forwarding it unchanged. -/
theorem patchedStdoutWrite_mutates_valid_input :
    (jsonParse "[\"\",\"\"]").isSome ∧
      patchedStdoutWrite "[\"\",\"\"]" = "[\"\",\",\"]" ∧
      patchedStdoutWrite "[\"\",\"\"]" ≠ "[\"\",\"\"]" := by decide

/-- C2 (amended): for every chunk that parses as valid JSON and does not
have double-quote characters at both positions 4 and 5 (the trigger of the
direct position-5 comma insertion), the patched stdout write forwards
exactly the original chunk. -/
theorem patchedStdoutWrite_valid_passthrough (chunk : String)
    (hv : (jsonParse chunk).isSome) (hp : posFivePattern chunk = false) :
    patchedStdoutWrite chunk = chunk := by
  simp [patchedStdoutWrite, hp, sanitizeJson_of_valid chunk hv]

/-- Witness for amended C2 at the valid input `{"a":1}`. -/
theorem patchedStdoutWrite_valid_passthrough_witness :
    (jsonParse "\x7b\"a\":1\x7d").isSome ∧ posFivePattern "\x7b\"a\":1\x7d" = false ∧
      patchedStdoutWrite "\x7b\"a\":1\x7d" = "\x7b\"a\":1\x7d" :=
  ⟨by decide, by decide, patchedStdoutWrite_valid_passthrough _ (by decide) (by decide)⟩

/-! ## The TCP proxy buffer handlers (`startProxy`, two variants)

Each server→client `data` event of the proxy appends the chunk to the
per-connection `responseBuffer`, then either flushes (clearing the buffer),
passes a marker-free chunk straight through (clearing the buffer), or — in
the source's dead third path — keeps buffering. The handlers are modelled as
step functions from buffer and chunk to the new buffer and the list of
strings written to the client socket. -/

/-- `str.includes(c)` for a single-character needle. -/
def hasChar (c : Char) (cs : List Char) : Bool := cs.any (fun x => x == c)

/-- `str.includes(pat)` (substring search). -/
def hasSub (pat : List Char) : List Char → Bool
  | [] => pat.isEmpty
  | c :: cs => pat.isPrefixOf (c :: cs) || hasSub pat cs

theorem hasChar_append (c : Char) (a b : List Char) :
    hasChar c (a ++ b) = (hasChar c a || hasChar c b) := by
  simp [hasChar]

theorem hasSub_append_of_right (pat a b : List Char) (h : hasSub pat b = true) :
    hasSub pat (a ++ b) = true := by
  induction a with
  | nil => simpa using h
  | cons x xs ih => simp [hasSub, ih]

/-- Fix of the second proxy variant, `/\[\s*q([^q]+)q\s*,/g → '["$1",'`
(double- and single-quote variants, lines 64–65 of the first proxy file). -/
def matchArrQComma (q : Char) : List Char → Option (List Char × List Char)
  | '[' :: rest =>
    let (_, r1) := rest.span isJsSpace
    match r1 with
    | c1 :: r2 =>
      if c1 = q then
        let (g1, r3) := r2.span (fun c => c ≠ q)
        if g1.isEmpty then none else
        match r3 with
        | _ :: r4 =>
          let (_, r5) := r4.span isJsSpace
          match r5 with
          | ',' :: r6 => some ('[' :: '"' :: g1 ++ ['"', ','], r6)
          | _ => none
        | [] => none
      else none
    | [] => none
  | _ => none

/-- Model-id rewrite `/"(pre[0-9.-]+)"/g → '"us$1"'` of the proxy (for
`pre` = `gemini-` or `gpt-`, `us` = `gemini_` or `gpt_`): note the
replacement keeps the whole captured group, so the prefix is doubled
(`"gemini-2.5"` becomes `"gemini_gemini-2.5"`), exactly as in the source. -/
def matchQuotedModel (pre us : List Char) : List Char → Option (List Char × List Char)
  | '"' :: rest =>
    if pre.isPrefixOf rest then
      let r1 := rest.drop pre.length
      let (body, r2) := r1.span (fun c => isDigitChar c || c == '.' || c == '-')
      if body.isEmpty then none else
      match r2 with
      | '"' :: r3 => some ('"' :: us ++ pre ++ body ++ ['"'], r3)
      | _ => none
    else none
  | _ => none

/-- One server→client data event of the proxy variant whose flush marker is
the presence of `{` or `[` in the buffer (second proxy file, lines
158–212). `ensure` abstracts the `ensureValidJson` transform applied on
flush (lines 17–121 of that file): the claim settled below concerns buffer
bookkeeping only, which does not depend on it. Returns the new buffer and
the strings written to the client. The `catch` path (write the original
chunk, clear the buffer) also clears the buffer; the model's body is total,
so it does not appear. -/
def proxyStepBrace (ensure : String → String) (buf chunk : String) :
    String × List String :=
  let bufAll := buf.data ++ chunk.data
  if hasChar '{' bufAll || hasChar '[' bufAll then
    let b1 := replaceAll (matchFix1 '"') bufAll
    let b2 := replaceAll (matchFix1 '\'') b1
    ("", [ensure ⟨b2⟩])
  else if !(hasChar '\x7b' chunk.data) && !(hasChar '[' chunk.data) then
    ("", [chunk])
  else
    (⟨bufAll⟩, [])

def jsonrpcMarker : List Char := '"' :: ('j' :: "sonrpc".data) ++ ['"', ':']
def contentMarker : List Char := '"' :: "content".data ++ ['"', ':']

/-- One server→client data event of the proxy variant whose flush marker is
the substring `"jsonrpc":` or `"content":` (first proxy file, lines 47–97),
with its inline repair battery (lines 60–72) applied on flush. -/
def proxyStepMarker (buf chunk : String) : String × List String :=
  let bufAll := buf.data ++ chunk.data
  if hasSub jsonrpcMarker bufAll || hasSub contentMarker bufAll then
    let s1 := replaceAll (matchArrQComma '"') bufAll
    let s2 := replaceAll (matchArrQComma '\'') s1
    let s3 := replaceAll matchFix4 s2
    let s4 := replaceAll (matchQuotedModel ('g' :: "emini-".data) ('g' :: "emini_".data)) s3
    let s5 := replaceAll (matchQuotedModel ('g' :: "pt-".data) ('g' :: "pt_".data)) s4
    ("", [⟨s5⟩])
  else if !(hasSub jsonrpcMarker chunk.data) && !(hasSub contentMarker chunk.data) then
    ("", [chunk])
  else
    (⟨bufAll⟩, [])

/-- C5: after every data event of either proxy handler — flush, passthrough
or failure, repaired or not — the per-connection buffer is empty: the
keep-buffering path requires a marker in the chunk that is absent from the
appended buffer, which is impossible, so the buffer never survives a cycle. -/
theorem proxy_buffer_cleared_each_event (ensure : String → String)
    (buf chunk : String) :
    (proxyStepBrace ensure buf chunk).1 = "" ∧
      (proxyStepMarker buf chunk).1 = "" := by
  constructor
  · cases hb : (hasChar '{' (buf.data ++ chunk.data) || hasChar '[' (buf.data ++ chunk.data)) with
    | true => simp [proxyStepBrace, hb]
    | false =>
      have hparts := Bool.or_eq_false_iff.mp hb
      have hc1 : hasChar '{' chunk.data = false := by
        have h := hparts.1
        rw [hasChar_append] at h
        exact (Bool.or_eq_false_iff.mp h).2
      have hc2 : hasChar '[' chunk.data = false := by
        have h := hparts.2
        rw [hasChar_append] at h
        exact (Bool.or_eq_false_iff.mp h).2
      simp [proxyStepBrace, hb, hc1, hc2]
  · cases hb : (hasSub jsonrpcMarker (buf.data ++ chunk.data) ||
        hasSub contentMarker (buf.data ++ chunk.data)) with
    | true => simp [proxyStepMarker, hb]
    | false =>
      have hparts := Bool.or_eq_false_iff.mp hb
      have hc1 : hasSub jsonrpcMarker chunk.data = false := by
        cases h : hasSub jsonrpcMarker chunk.data
        · rfl
        · exact absurd (hasSub_append_of_right _ buf.data _ h) (by simp [hparts.1])
      have hc2 : hasSub contentMarker chunk.data = false := by
        cases h : hasSub contentMarker chunk.data
        · rfl
        · exact absurd (hasSub_append_of_right _ buf.data _ h) (by simp [hparts.2])
      simp [proxyStepMarker, hb, hc1, hc2]

/-! ## JavaScript value utilities

Truthiness, `String()` coercion, `Object.entries`, spread-with-override and
the key-rewrite helpers used by the transport and tools layers. Recursion
through values is bounded by `stackFuel`, the model of the JavaScript call
stack limit: exceeding it is a (catchable) throw in JavaScript and an
`.error` here; no concrete datum of this development comes near it. -/

def stackFuel : Nat := 10000

/-- Whether a numeric lexeme denotes the value zero (all mantissa digits are
`0`), so that its truthiness matches JavaScript's. -/
def numLexemeIsZero (l : String) : Bool :=
  ((l.data.dropWhile (fun c => c == '-')).takeWhile
      (fun c => c ≠ 'e' ∧ c ≠ 'E')).all (fun c => c == '0' || c == '.')

/-- JavaScript falsiness: `undefined`, `null`, `false`, `±0` (also as a
non-integral zero literal and as BigInt zero), `NaN` and the empty string. -/
def jsFalsy : JsValue → Bool
  | .undefined => true
  | .null => true
  | .bool b => !b
  | .num n => n == 0
  | .numLit l => numLexemeIsZero l
  | .nan => true
  | .str s => s == ""
  | .bigint n => n == 0
  | .arr _ => false
  | .obj _ => false
  | .errObj _ _ _ => false

/-- `String(value)`: array elements join with commas (`null`/`undefined`
becoming empty), objects print `[object Object]`, an `Error` prints
`name: message`. -/
def jsToStringF : Nat → JsValue → String
  | 0, _ => ""
  | _ + 1, .undefined => "undefined"
  | _ + 1, .null => "null"
  | _ + 1, .bool b => if b then "true" else "false"
  | _ + 1, .num n => toString n
  | _ + 1, .numLit l => l
  | _ + 1, .nan => "NaN"
  | _ + 1, .str s => s
  | fuel + 1, .arr xs =>
    String.intercalate ","
      (xs.map (fun v =>
        match v with
        | .null => ""
        | .undefined => ""
        | w => jsToStringF fuel w))
  | _ + 1, .obj _ => "[object Object]"
  | _ + 1, .bigint n => toString n
  | _ + 1, .errObj n m _ => if m == "" then n else n ++ ": " ++ m

def jsToString (v : JsValue) : String := jsToStringF stackFuel v

/-- `Object.entries`: own enumerable properties — an object's fields, an
array's or string's indexed elements, nothing for primitives and `Error`
objects (whose `message`/`stack` are non-enumerable). -/
def jsEntries : JsValue → List (String × JsValue)
  | .obj fs => fs
  | .arr xs => xs.enum.map (fun p => (toString p.1, p.2))
  | .str s => s.data.enum.map (fun p => (toString p.1, JsValue.str ⟨[p.2]⟩))
  | _ => []

/-- `{ ...fs, k: v }` when building from an existing object: an existing key
keeps its position and takes the new value, a fresh key is appended. -/
def jsSpreadSet (fs : List (String × JsValue)) (k : String) (v : JsValue) :
    List (String × JsValue) :=
  if fs.any (fun p => p.1 = k) then
    fs.map (fun p => if p.1 = k then (k, v) else p)
  else fs ++ [(k, v)]

/-- First field with the given key (JavaScript property read on the
duplicate-free objects the code builds). -/
def objLookup (fs : List (String × JsValue)) (k : String) : Option JsValue :=
  (fs.find? (fun p => p.1 == k)).map Prod.snd

def objFields : JsValue → List (String × JsValue)
  | .obj fs => fs
  | _ => []

/-- `obj && typeof obj === 'object' && k in obj` for the values of the
model (arrays and `Error`s carry no such own property). -/
def hasOwnKey (v : JsValue) (k : String) : Bool :=
  match v with
  | .obj fs => fs.any (fun p => p.1 == k)
  | _ => false

/-- `x.availableModels || {}`. -/
def modelsOrEmpty : Option JsValue → JsValue
  | some v => if jsFalsy v then .obj [] else v
  | none => .obj []

/-- `key.replace(/[.-]/g, '_')`. -/
def replaceDotsHyphens (k : String) : String :=
  ⟨k.data.map (fun c => if c = '.' ∨ c = '-' then '_' else c)⟩

def isAsciiAlnum (c : Char) : Bool :=
  let n := c.toNat
  (97 ≤ n && n ≤ 122) || (65 ≤ n && n ≤ 90) || (48 ≤ n && n ≤ 57)

/-- `key.replace(/[^a-zA-Z0-9]/g, '_')`. -/
def safeKeyAlnum (k : String) : String :=
  ⟨k.data.map (fun c => if isAsciiAlnum c then c else '_')⟩

/-- `key.replace(/[^a-zA-Z0-9_]/g, '_')`. -/
def safeKeyAlnumUnderscore (k : String) : String :=
  ⟨k.data.map (fun c => if isAsciiAlnum c || c == '_' then c else '_')⟩

/-! ## The JavaScript `JSON.stringify` model (no replacer, no indent)

`.error` where the built-in throws (BigInt, call-stack overflow); `.ok none`
where it returns `undefined` (the top-level `undefined` value); an `Error`
object serializes to `{}` (its properties are non-enumerable); `NaN`
serializes to `null`; an `undefined` array element becomes `null` and an
`undefined` field value drops its field. -/

def hexDigitChar (n : Nat) : Char :=
  if n < 10 then Char.ofNat ('0'.toNat + n) else Char.ofNat ('a'.toNat + n - 10)

def escapeJsonChars : List Char → List Char
  | [] => []
  | c :: cs =>
    if c = '"' then '\\' :: '"' :: escapeJsonChars cs
    else if c = '\\' then '\\' :: '\\' :: escapeJsonChars cs
    else if c = '\n' then '\\' :: 'n' :: escapeJsonChars cs
    else if c = '\r' then '\\' :: 'r' :: escapeJsonChars cs
    else if c = '\t' then '\\' :: 't' :: escapeJsonChars cs
    else if c.toNat = 8 then '\\' :: 'b' :: escapeJsonChars cs
    else if c.toNat = 12 then '\\' :: 'f' :: escapeJsonChars cs
    else if c.toNat < 0x20 then
      '\\' :: 'u' :: '0' :: '0' ::
        hexDigitChar (c.toNat / 16) :: hexDigitChar (c.toNat % 16) :: escapeJsonChars cs
    else c :: escapeJsonChars cs

def quoteJsonString (s : String) : String := ⟨'"' :: escapeJsonChars s.data ++ ['"']⟩

/-- Left-to-right error propagation through a traversal (the depth-first
order in which `JSON.stringify` visits values). -/
def collectExcept : List (Except String α) → Except String (List α)
  | [] => .ok []
  | .ok a :: rest => (collectExcept rest).map (fun l => a :: l)
  | .error e :: _ => .error e

def jsonStringifyF : Nat → JsValue → Except String (Option String)
  | 0, _ => .error "Maximum call stack size exceeded"
  | _ + 1, .undefined => .ok none
  | _ + 1, .null => .ok (some "null")
  | _ + 1, .bool b => .ok (some (if b then "true" else "false"))
  | _ + 1, .num n => .ok (some (toString n))
  | _ + 1, .numLit l => .ok (some l)
  | _ + 1, .nan => .ok (some "null")
  | _ + 1, .str s => .ok (some (quoteJsonString s))
  | _ + 1, .bigint _ => .error "Do not know how to serialize a BigInt"
  | _ + 1, .errObj _ _ _ => .ok (some "\x7b\x7d")
  | fuel + 1, .arr xs =>
    match collectExcept (xs.map (fun v => jsonStringifyF fuel v)) with
    | .ok parts =>
      .ok (some ("[" ++ String.intercalate ","
        (parts.map (fun o => o.getD "null")) ++ "]"))
    | .error e => .error e
  | fuel + 1, .obj fs =>
    match collectExcept (fs.map (fun p =>
        (jsonStringifyF fuel p.2).map (fun o => (p.1, o)))) with
    | .ok parts =>
      .ok (some ("\x7b" ++ String.intercalate ","
        ((parts.filterMap (fun p =>
          p.2.map (fun s => quoteJsonString p.1 ++ ":" ++ s)))) ++ "\x7d"))
    | .error e => .error e

def jsonStringifyE (v : JsValue) : Except String (Option String) :=
  jsonStringifyF stackFuel v

/-! ## `sanitizeModelIds` (`src/tools/index.ts` lines 36–57) -/

/-- `sanitizeModelIds`: when the value is an object owning `availableModels`,
rebuild it by spread with the model map's keys rewritten (`/[.-]/g → '_'`)
and its values coerced to strings; any other value is returned as-is. -/
def sanitizeModelIds (data : JsValue) : JsValue :=
  match data with
  | .obj fs =>
    if fs.any (fun p => p.1 == "availableModels") then
      let models := modelsOrEmpty (objLookup fs "availableModels")
      let sanitizedModels := (jsEntries models).map
        (fun p => (replaceDotsHyphens p.1, JsValue.str (jsToString p.2)))
      .obj (jsSpreadSet fs "availableModels" (.obj sanitizedModels))
    else data
  | _ => data

theorem objLookup_setKey_ne (fs : List (String × JsValue)) (k0 k : String)
    (w : JsValue) (hne : k ≠ k0) :
    objLookup (fs.map (fun p => if p.1 = k0 then (k0, w) else p)) k =
      objLookup fs k := by
  induction fs with
  | nil => rfl
  | cons p rest ih =>
    obtain ⟨pk, pv⟩ := p
    by_cases h : pk = k0
    · subst h
      have hbk : (pk == k) = false := by
        simp only [beq_eq_false_iff_ne, ne_eq]
        exact fun hh => hne hh.symm
      simp [objLookup, List.find?, hbk] at ih ⊢
      exact ih
    · by_cases h2 : pk = k
      · subst h2
        simp [objLookup, List.find?, h]
      · have hbk : (pk == k) = false := by simp [h2]
        simp [objLookup, List.find?, h, hbk] at ih ⊢
        exact ih

theorem objLookup_setKey_hit (fs : List (String × JsValue)) (k0 : String)
    (w : JsValue) (hk : fs.any (fun p => p.1 = k0) = true) :
    objLookup (fs.map (fun p => if p.1 = k0 then (k0, w) else p)) k0 =
      some w := by
  induction fs with
  | nil => simp at hk
  | cons p rest ih =>
    obtain ⟨pk, pv⟩ := p
    by_cases h : pk = k0
    · subst h
      simp [objLookup, List.find?]
    · have hk' : rest.any (fun p => p.1 = k0) = true := by
        simp [List.any_cons, h] at hk
        simpa using hk
      have hbk : (pk == k0) = false := by simp [h]
      simp [objLookup, List.find?, h, hbk]
      simpa [objLookup] using ih hk'

theorem setKey_keys (fs : List (String × JsValue)) (k0 : String) (w : JsValue) :
    (fs.map (fun p => if p.1 = k0 then (k0, w) else p)).map Prod.fst =
      fs.map Prod.fst := by
  induction fs with
  | nil => rfl
  | cons p rest ih =>
    obtain ⟨pk, pv⟩ := p
    by_cases h : pk = k0
    · subst h
      simp [ih]
    · simp [h, ih]

/-- C9: on a tool-result object owning `availableModels`, `sanitizeModelIds`
rewrites only that field — every other top-level field reads back with its
original value, the key sequence (hence field order) is untouched, and the
`availableModels` value becomes exactly the dot/hyphen-to-underscore,
value-stringified rewrite of the original map. (The source builds the
result with an object spread; the embedding, like the spread, constructs a
new field list and leaves the input value untouched.) -/
theorem sanitizeModelIds_frame (fs : List (String × JsValue))
    (hk : fs.any (fun p => p.1 == "availableModels") = true) :
    (∀ k : String, k ≠ "availableModels" →
        objLookup (objFields (sanitizeModelIds (.obj fs))) k = objLookup fs k) ∧
    objLookup (objFields (sanitizeModelIds (.obj fs))) "availableModels" =
      some (.obj ((jsEntries (modelsOrEmpty (objLookup fs "availableModels"))).map
        (fun p => (replaceDotsHyphens p.1, JsValue.str (jsToString p.2))))) ∧
    (objFields (sanitizeModelIds (.obj fs))).map Prod.fst = fs.map Prod.fst := by
  have hk' : fs.any (fun p => p.1 = "availableModels") = true := by
    simpa using hk
  have hform : sanitizeModelIds (.obj fs) =
      .obj (fs.map (fun p => if p.1 = "availableModels" then
        ("availableModels",
          JsValue.obj ((jsEntries (modelsOrEmpty (objLookup fs "availableModels"))).map
            (fun p => (replaceDotsHyphens p.1, JsValue.str (jsToString p.2)))))
        else p)) := by
    simp only [sanitizeModelIds, hk, if_true, jsSpreadSet, hk']
  rw [hform]
  simp only [objFields]
  refine ⟨fun k hne => objLookup_setKey_ne _ _ _ _ hne,
    objLookup_setKey_hit _ _ _ hk', setKey_keys _ _ _⟩

/-- A concrete tool result for the C9 witness. -/
def c9Input : List (String × JsValue) :=
  [("availableModels", .obj [("gemini-2.5-pro-preview-05-06", .str "Google Gemini 2.5 Pro")]),
   ("modelUsed", .str "None"),
   ("error", .null)]

/-- Witness for C9 at `c9Input`: the hypothesis holds and the frame theorem
gives the untouched `modelUsed` field back. -/
theorem sanitizeModelIds_frame_witness :
    (c9Input.any (fun p => p.1 == "availableModels") = true) ∧
      objLookup (objFields (sanitizeModelIds (.obj c9Input))) "modelUsed" =
        objLookup c9Input "modelUsed" :=
  ⟨by decide, (sanitizeModelIds_frame c9Input (by decide)).1 "modelUsed" (by decide)⟩

/-! ## `formatForMcpResponse` (`src/utils/transport-helpers.ts` lines 12–58)

The try-body translated branch for branch; the only runtime failure the body
can produce is call-stack exhaustion on deep recursion, modelled by the fuel
running out, and the source's `catch` turns any such failure into a logged
`null`. `null` and `undefined` both return `null`; an object with some key
containing a dot or a hyphen gets all keys rewritten to alphanumeric and all
values coerced to `String(...)`; other objects recurse with `_` also allowed
in keys; arrays map element-wise; numbers and booleans pass through; anything
else is coerced with `String(...)`. An `Error` object has no enumerable keys,
so it lands in the recursive branch and yields `{}`. -/
def formatForMcpResponseF : Nat → JsValue → Except String JsValue
  | 0, _ => .error "Maximum call stack size exceeded"
  | _ + 1, .null => .ok .null
  | _ + 1, .undefined => .ok .null
  | fuel + 1, .obj fs =>
    if fs.any (fun p => hasChar '-' p.1.data || hasChar '.' p.1.data) then
      .ok (.obj (fs.map (fun p => (safeKeyAlnum p.1, JsValue.str (jsToString p.2)))))
    else
      match collectExcept (fs.map (fun p =>
          (formatForMcpResponseF fuel p.2).map (fun v => (safeKeyAlnumUnderscore p.1, v)))) with
      | .ok fields => .ok (.obj fields)
      | .error e => .error e
  | _ + 1, .errObj _ _ _ => .ok (.obj [])
  | fuel + 1, .arr xs =>
    match collectExcept (xs.map (fun v => formatForMcpResponseF fuel v)) with
    | .ok elems => .ok (.arr elems)
    | .error e => .error e
  | _ + 1, .num n => .ok (.num n)
  | _ + 1, .numLit l => .ok (.numLit l)
  | _ + 1, .nan => .ok .nan
  | _ + 1, .bool b => .ok (.bool b)
  | fuel + 1, .bigint n => .ok (.str (jsToStringF fuel (.bigint n)))
  | fuel + 1, .str s => .ok (.str (jsToStringF fuel (.str s)))

/-- `formatForMcpResponse` with the source's `catch`: an internal failure is
logged and becomes `null`. -/
def formatForMcpResponse (data : JsValue) : JsValue :=
  match formatForMcpResponseF stackFuel data with
  | .ok v => v
  | .error _ => .null

/-- Counterexample to C7: `undefined` does not pass through unchanged — the
normalizer maps it to `null`, a different value. -/
theorem formatForMcpResponse_undefined_to_null :
    formatForMcpResponse .undefined = .null ∧ JsValue.null ≠ JsValue.undefined := by
  constructor
  · rfl
  · intro h
    exact JsValue.noConfusion h

/-- C7 (amended): the normalizer is total — for every input it either
returns the try-body's value or, on internal failure (call-stack
exhaustion), logs and returns `null`; `null` passes through unchanged and
`undefined` is mapped to `null`. -/
theorem formatForMcpResponse_total_null_cases :
    (∀ v : JsValue,
        (∃ w, formatForMcpResponseF stackFuel v = .ok w ∧ formatForMcpResponse v = w) ∨
          formatForMcpResponse v = .null) ∧
      formatForMcpResponse .null = .null ∧ formatForMcpResponse .undefined = .null := by
  refine ⟨fun v => ?_, rfl, rfl⟩
  unfold formatForMcpResponse
  cases h : formatForMcpResponseF stackFuel v with
  | ok w => exact Or.inl ⟨w, rfl, rfl⟩
  | error e => exact Or.inr rfl

/-! ## `safeJsonStringify` (`src/utils/transport-helpers.ts` lines 64–111) -/

/-- The JSON-RPC error envelope the `catch` of `safeJsonStringify`
substitutes on encode failure. -/
def mcpFallbackEnvelope : JsValue :=
  .obj [("jsonrpc", .str "2.0"),
        ("error", .obj [("code", .num (-32603)),
                        ("message", .str "Internal JSON-RPC error: Could not serialize response")]),
        ("id", .null)]

/-- The string written for the fallback envelope (`JSON.stringify` of a
plain literal object — cannot itself fail). -/
def mcpFallbackString : String :=
  match jsonStringifyE mcpFallbackEnvelope with
  | .ok (some s) => s
  | _ => ""

/-- The `try` body of `safeJsonStringify`: an object owning
`availableModels` is re-encoded with its model map's keys rewritten
(`/[.-]/g → '_'`) and values stringified before `JSON.stringify`; the
`review`/`reviewText` branch and the default branch both plain-stringify. -/
def tryStringifyMcp (obj : JsValue) : Except String (Option String) :=
  if hasOwnKey obj "availableModels" then
    let models := modelsOrEmpty (objLookup (objFields obj) "availableModels")
    let cleanModels := (jsEntries models).map
      (fun p => (replaceDotsHyphens p.1, JsValue.str (jsToString p.2)))
    let cleanObj := match obj with
      | .obj fs => JsValue.obj (jsSpreadSet fs "availableModels" (.obj cleanModels))
      | _ => obj
    jsonStringifyE cleanObj
  else if hasOwnKey obj "review" || hasOwnKey obj "reviewText" then
    jsonStringifyE obj
  else
    jsonStringifyE obj

/-- `safeJsonStringify`: a string comes back verbatim; otherwise the try
body runs, the `catch` substituting the fallback envelope string on any
throw. `none` models the JavaScript `undefined` the function returns when
`JSON.stringify` itself returns `undefined`. -/
def safeJsonStringify (obj : JsValue) : Option String :=
  match obj with
  | .str s => some s
  | _ =>
    match tryStringifyMcp obj with
    | .ok r => r
    | .error _ => some mcpFallbackString

/-- Counterexample to C6: on an encode failure (a BigInt value) the
substituted envelope carries the message `Internal JSON-RPC error: Could
not serialize response`, not the message `internal error` the claim
states. -/
theorem safeJsonStringify_message_not_internal_error :
    safeJsonStringify (.bigint 1) = some mcpFallbackString ∧
      jsonParse mcpFallbackString = some mcpFallbackEnvelope ∧
      objLookup (objFields mcpFallbackEnvelope) "error" =
        some (.obj [("code", .num (-32603)),
          ("message", .str "Internal JSON-RPC error: Could not serialize response")]) ∧
      ("Internal JSON-RPC error: Could not serialize response" : String) ≠
        "internal error" := by
  refine ⟨by decide, by decide, by decide, by decide⟩

/-- C6 (amended): the send-side serializer never throws; for every
non-string value whose encoding fails, it substitutes the fallback JSON-RPC
error envelope — code `-32603`, message `Internal JSON-RPC error: Could not
serialize response` — whose text is syntactically valid JSON, so on the
failure path the peer receives valid JSON. (Strings are forwarded verbatim
and are not re-validated.) -/
theorem safeJsonStringify_encode_failure_envelope (v : JsValue)
    (hs : ∀ s, v ≠ .str s) (hf : ∃ e, tryStringifyMcp v = .error e) :
    safeJsonStringify v = some mcpFallbackString ∧
      (jsonParse mcpFallbackString).isSome ∧
      objLookup (objFields mcpFallbackEnvelope) "error" =
        some (.obj [("code", .num (-32603)),
          ("message", .str "Internal JSON-RPC error: Could not serialize response")]) := by
  obtain ⟨e, he⟩ := hf
  refine ⟨?_, by decide, by decide⟩
  cases v with
  | str s => exact absurd rfl (hs s)
  | undefined => simp [safeJsonStringify, he]
  | null => simp [safeJsonStringify, he]
  | bool b => simp [safeJsonStringify, he]
  | num n => simp [safeJsonStringify, he]
  | numLit l => simp [safeJsonStringify, he]
  | nan => simp [safeJsonStringify, he]
  | arr xs => simp [safeJsonStringify, he]
  | obj fs => simp [safeJsonStringify, he]
  | bigint n => simp [safeJsonStringify, he]
  | errObj a b c => simp [safeJsonStringify, he]

/-- Witness for amended C6 at the BigInt value `1n`. -/
theorem safeJsonStringify_encode_failure_envelope_witness :
    safeJsonStringify (.bigint 1) = some mcpFallbackString :=
  (safeJsonStringify_encode_failure_envelope (.bigint 1)
    (fun _ h => JsValue.noConfusion h)
    ⟨"Do not know how to serialize a BigInt", rfl⟩).1

/-! ## Configuration (`src/config/index.ts`) and the `listModels` tool
(`src/tools/index.ts` lines 63–77 and 271–310)

A provider key is configured or not; truthiness of the environment string
is a boolean here. -/

structure ProviderKeys where
  openai : Bool
  google : Bool
  anthropic : Bool
deriving DecidableEq, Repr

inductive ModelProvider where
  | openai
  | google
  | anthropic
deriving DecidableEq, Repr

def SERVER_NAME : String := "claude-code-review-mcp"
def SERVER_VERSION : String := "0.10.0"

/-- `modelMapping`: model id → human-readable name. -/
def modelMapping : List (String × String) :=
  [("gpt-4.1", "OpenAI GPT-4.1"),
   ("o4-mini", "OpenAI O4 Mini"),
   ("o3-mini", "OpenAI O3 Mini"),
   ("gemini-2.5-pro-preview-05-06", "Google Gemini 2.5 Pro"),
   ("gemini-2.5-flash-preview-04-17", "Google Gemini 2.5 Flash"),
   ("claude-3-opus-20240229", "Anthropic Claude 3 Opus"),
   ("claude-3-sonnet-20240229", "Anthropic Claude 3 Sonnet"),
   ("claude-3-haiku-20240307", "Anthropic Claude 3 Haiku")]

def modelCategories (p : ModelProvider) : List String :=
  match p with
  | .openai => ["gpt-4.1", "o4-mini", "o3-mini"]
  | .google => ["gemini-2.5-pro-preview-05-06", "gemini-2.5-flash-preview-04-17"]
  | .anthropic => ["claude-3-opus-20240229", "claude-3-sonnet-20240229", "claude-3-haiku-20240307"]

def hasApiKey (c : ProviderKeys) : ModelProvider → Bool
  | .openai => c.openai
  | .google => c.google
  | .anthropic => c.anthropic

def getModelProvider (m : String) : Option ModelProvider :=
  if m ∈ modelCategories .openai then some .openai
  else if m ∈ modelCategories .google then some .google
  else if m ∈ modelCategories .anthropic then some .anthropic
  else none

def isModelAvailable (c : ProviderKeys) (m : String) : Bool :=
  match getModelProvider m with
  | some p => hasApiKey c p
  | none => false

/-- `modelMapping[model]` (a missing id would read as `undefined`). -/
def mappingValue (m : String) : JsValue :=
  match modelMapping.find? (fun p => p.1 == m) with
  | some p => .str p.2
  | none => .undefined

/-- `getAvailableModels`: for each provider with a key, its category's
models with their mapped names, in category order. -/
def getAvailableModels (c : ProviderKeys) : List (String × JsValue) :=
  (if c.openai then (modelCategories .openai).map (fun m => (m, mappingValue m)) else []) ++
  (if c.google then (modelCategories .google).map (fun m => (m, mappingValue m)) else []) ++
  (if c.anthropic then (modelCategories .anthropic).map (fun m => (m, mappingValue m)) else [])

/-- `getProviderSummary` (`src/utils/ai-providers.ts` lines 285–300). -/
def getProviderSummary (c : ProviderKeys) : JsValue :=
  .obj [("openai", .obj [("available", .bool c.openai),
          ("models", .arr (((modelCategories .openai).filter (isModelAvailable c)).map JsValue.str))]),
        ("google", .obj [("available", .bool c.google),
          ("models", .arr (((modelCategories .google).filter (isModelAvailable c)).map JsValue.str))]),
        ("anthropic", .obj [("available", .bool c.anthropic),
          ("models", .arr (((modelCategories .anthropic).filter (isModelAvailable c)).map JsValue.str))])]

/-- `fullySanitize`: model-id sanitization, then a stringify / sanitize /
re-parse round through the JSON sanitizer; any throw in that pipeline
(including `JSON.parse(undefined)` when stringify returned `undefined`) is
caught and the original data returned. -/
def fullySanitize (data : JsValue) : JsValue :=
  match jsonStringifyE (sanitizeModelIds data) with
  | .ok (some s) =>
    match jsonParse (sanitizeJson s) with
    | some v => v
    | none => data
  | _ => data

/-- The result object the `listModels` handler builds on its success path
(`src/tools/index.ts` lines 290–298) before `fullySanitize`; the `catch`
path (an `error` field and empty model map) cannot be reached, the body
being total. -/
def listModelsResponse (c : ProviderKeys) : JsValue :=
  .obj [("availableModels", .obj (getAvailableModels c)),
        ("modelUsed", .str "None"),
        ("serverInfo", .obj [("name", .str SERVER_NAME),
                             ("version", .str SERVER_VERSION),
                             ("providers", getProviderSummary c)])]

def listModelsHandler (c : ProviderKeys) : JsValue :=
  fullySanitize (listModelsResponse c)

def isSafeModelKeyChar (c : Char) : Bool :=
  let n := c.toNat
  (97 ≤ n && n ≤ 122) || (48 ≤ n && n ≤ 57) || n == 95

/-- Whether the response's `availableModels` map exists and all its keys
are lowercase ASCII alphanumeric or underscore. -/
def availableModelsKeysSafe (v : JsValue) : Bool :=
  match objLookup (objFields v) "availableModels" with
  | some (.obj ms) => ms.all (fun p => p.1.data.all isSafeModelKeyChar)
  | _ => false

set_option maxRecDepth 100000 in
/-- C8: with exactly one provider configured, the `listModels` result has
`availableModels` keys made of lowercase ASCII alphanumerics and
underscores only, and its `modelUsed` field is the literal string `None`. -/
theorem listModels_keys_safe_modelUsed_none (c : ProviderKeys)
    (h : c = ⟨true, false, false⟩ ∨ c = ⟨false, true, false⟩ ∨ c = ⟨false, false, true⟩) :
    availableModelsKeysSafe (listModelsHandler c) = true ∧
      objLookup (objFields (listModelsHandler c)) "modelUsed" =
        some (.str "None") := by
  rcases h with h | h | h <;> subst h <;> exact ⟨by decide, by decide⟩

/-- Witness for C8 with only the Google key configured. -/
theorem listModels_keys_safe_modelUsed_none_witness :
    availableModelsKeysSafe (listModelsHandler ⟨false, true, false⟩) = true ∧
      objLookup (objFields (listModelsHandler ⟨false, true, false⟩)) "modelUsed" =
        some (.str "None") :=
  listModels_keys_safe_modelUsed_none ⟨false, true, false⟩ (Or.inr (Or.inl rfl))

/-! ## `safeStringify` (`src/utils/json-safe.ts` lines 133–158)

`JSON.stringify(obj, replacer, 2)` with the source's replacer: an `Error`
value becomes a plain `{name, message, stack}` object; the circularity
check over the `seen` set cannot fire on the tree values of the model
(object identity and hence shared references are not representable, which
is consistent with the function never seeing a cycle). The third argument
`2` pretty-prints with two-space indentation and `": "` after keys. -/

def ssReplacer : JsValue → JsValue
  | .errObj n m s => .obj [("name", .str n), ("message", .str m), ("stack", .str s)]
  | v => v

def stringifyRIF : Nat → String → JsValue → Except String (Option String)
  | 0, _, _ => .error "Maximum call stack size exceeded"
  | fuel + 1, ind, v0 =>
    match ssReplacer v0 with
    | .undefined => .ok none
    | .null => .ok (some "null")
    | .bool b => .ok (some (if b then "true" else "false"))
    | .num n => .ok (some (toString n))
    | .numLit l => .ok (some l)
    | .nan => .ok (some "null")
    | .str s => .ok (some (quoteJsonString s))
    | .bigint _ => .error "Do not know how to serialize a BigInt"
    | .errObj _ _ _ => .ok (some "\x7b\x7d")
    | .arr xs =>
      if xs.isEmpty then .ok (some "[]")
      else
        match collectExcept (xs.map (fun v => stringifyRIF fuel (ind ++ "  ") v)) with
        | .ok parts =>
          .ok (some ("[\n" ++ ind ++ "  " ++
            String.intercalate (",\n" ++ ind ++ "  ")
              (parts.map (fun o => o.getD "null")) ++
            "\n" ++ ind ++ "]"))
        | .error e => .error e
    | .obj fs =>
      match collectExcept (fs.map (fun p =>
          (stringifyRIF fuel (ind ++ "  ") p.2).map (fun o => (p.1, o)))) with
      | .ok parts =>
        let items := parts.filterMap (fun p =>
          p.2.map (fun s => quoteJsonString p.1 ++ ": " ++ s))
        if items.isEmpty then .ok (some "\x7b\x7d")
        else
          .ok (some ("\x7b\n" ++ ind ++ "  " ++
            String.intercalate (",\n" ++ ind ++ "  ") items ++
            "\n" ++ ind ++ "\x7d"))
      | .error e => .error e

/-- `safeStringify`: a falsy input short-circuits to `'{}'`; otherwise the
replacer-and-indent stringify runs under `try`, the `catch` producing the
interpolated error string. `none` models the `undefined` the underlying
`JSON.stringify` would return (shown below never to occur for the inputs
that reach it). -/
def safeStringify (obj : JsValue) : Option String :=
  if jsFalsy obj then some "\x7b\x7d"
  else
    match stringifyRIF stackFuel "" obj with
    | .ok (some s) => some s
    | .ok none => none
    | .error e =>
      some ("\x7b\"error\": \"Unable to stringify object\", \"message\": \"" ++ e ++ "\"\x7d")

theorem stringifyRIF_root_not_none (fuel : Nat) (ind : String) (v : JsValue)
    (hv : v ≠ .undefined) : stringifyRIF (fuel + 1) ind v ≠ .ok none := by
  cases v with
  | undefined => exact absurd rfl hv
  | bool b => cases b <;> simp [stringifyRIF, ssReplacer]
  | arr xs =>
    unfold stringifyRIF
    simp only [ssReplacer]
    split <;> [skip; split] <;> simp
  | obj fs =>
    unfold stringifyRIF
    simp only [ssReplacer]
    split <;> try split
    all_goals simp
  | errObj n m s =>
    unfold stringifyRIF
    simp only [ssReplacer]
    split <;> try split
    all_goals simp
  | _ => simp [stringifyRIF, ssReplacer]

/-- C10: every falsy input — `undefined`, `null`, `false`, `0`, `NaN`, the
empty string — makes `safeStringify` return the literal `'{}'`, discarding
the value; every other input (Error objects included; circular structures
are not constructible in the model) yields a string without a throw. -/
theorem safeStringify_falsy_and_total :
    (∀ v : JsValue, jsFalsy v = true → safeStringify v = some "\x7b\x7d") ∧
      (∀ v : JsValue, jsFalsy v = false → ∃ s, safeStringify v = some s) := by
  constructor
  · intro v hf
    simp [safeStringify, hf]
  · intro v hf
    have hv : v ≠ .undefined := by
      intro h
      subst h
      simp [jsFalsy] at hf
    unfold safeStringify
    rw [hf]
    simp only [Bool.false_eq_true, if_false]
    rcases hr : stringifyRIF stackFuel "" v with e | r
    · exact ⟨_, rfl⟩
    · rcases r with _ | s
      · exact absurd hr (stringifyRIF_root_not_none _ _ v hv)
      · exact ⟨s, rfl⟩

/-- Witness for C10: the falsy empty string yields `'{}'`; a truthy `Error`
value yields a string. -/
theorem safeStringify_falsy_and_total_witness :
    safeStringify (.str "") = some "\x7b\x7d" ∧
      ∃ s, safeStringify (.errObj "Error" "boom" "") = some s :=
  ⟨safeStringify_falsy_and_total.1 (.str "") (by decide),
    safeStringify_falsy_and_total.2 (.errObj "Error" "boom" "") (by decide)⟩

end CCR
